import Mathlib

/-!
Verification development for a cross-chain bridge event relayer
(`script.py`: `EventListener`, `EventProcessor`) and a configuration
loader (`loader.py`: `ConfigLoader`).

The Python source is shallowly embedded: pure fragments become Lean
functions, fallible fragments return `Except`, and the poll loop of
`EventListener.run` becomes an explicit per-cycle step function driven
by an environment record describing the collaborators' outcomes for
that cycle.
-/

set_option autoImplicit false

namespace Bridge

/-- Python exception kinds that the embedded code can raise or catch. -/
inductive PyErr where
  | fileNotFound
  | jsonDecodeError
  | attributeError
  | typeError
  | valueError
  | rpcError
  | signError
  deriving Repr, DecidableEq

/-! ### Checkpoint state file (`_load_state` / `_save_state`)

The state file's content is modelled as a parsed JSON value (or the
absence / unparseability of the file); `json.load`, `dict.get` and
Python's `int(...)` conversion are each embedded separately, following
their behaviour on the value shapes JSON can produce. -/

/-- A JSON value, as produced by `json.load`. Numbers are modelled as
integers (a fractional JSON number would only change the truncated
value, not the raising behaviour embedded here). -/
inductive JValue where
  | jnull
  | jbool (b : Bool)
  | jnum (n : Int)
  | jstr (s : String)
  | jarr (elems : List JValue)
  | jobj (fields : List (String × JValue))
  deriving Repr

/-- The observable state of the checkpoint file when `_load_state` opens
it: missing, present but not valid JSON, or holding a JSON value. -/
inductive FileState where
  | absent
  | unparseable
  | content (v : JValue)
  deriving Repr

/-- `state.get('last_processed_block', default)`: Python `dict.get` on
the loaded JSON value. On a non-dict value the attribute lookup `.get`
raises `AttributeError`. -/
def pyDictGet (v : JValue) (key : String) (dflt : JValue) : Except PyErr JValue :=
  match v with
  | .jobj fields => .ok ((fields.lookup key).getD dflt)
  | _ => .error .attributeError

/-- Decimal value of one character, if it is a digit. -/
def digitVal (c : Char) : Option Nat :=
  if '0' ≤ c ∧ c ≤ '9' then some (c.toNat - '0'.toNat) else none

/-- Accumulates a decimal digit string into a number; `none` on the
first non-digit character. -/
def digitsAux : List Char → Nat → Option Nat
  | [], acc => some acc
  | c :: cs, acc =>
    match digitVal c with
    | some d => digitsAux cs (acc * 10 + d)
    | none => none

/-- Parses a nonempty all-digit character list. -/
def digitsOf : List Char → Option Nat
  | [] => none
  | cs => digitsAux cs 0

/-- Python `int(str)` on a string: an optional sign followed by digits
(Python's additional tolerance of surrounding whitespace and interior
underscores is not modelled; it does not affect which shapes raise). -/
def pyStrToInt (s : String) : Option Int :=
  match s.data with
  | '-' :: rest => (digitsOf rest).map (fun n => -(n : Int))
  | '+' :: rest => (digitsOf rest).map (fun n => (n : Int))
  | cs => (digitsOf cs).map (fun n => (n : Int))

/-- Python `int(x)` on a JSON-shaped value: ints and bools convert,
numeric strings parse, other strings raise `ValueError`, and
`None`/lists/dicts raise `TypeError`. -/
def pyInt (v : JValue) : Except PyErr Int :=
  match v with
  | .jnum n => .ok n
  | .jbool b => .ok (if b then 1 else 0)
  | .jstr s =>
    match pyStrToInt s with
    | some n => .ok n
    | none => .error .valueError
  | .jnull => .error .typeError
  | .jarr _ => .error .typeError
  | .jobj _ => .error .typeError

/-- The JSON key under which the checkpoint is persisted. -/
def stateKey : String := "last_processed_block"

/-- The body of `EventListener._load_state`'s `try:` block:
`int(json.load(f).get('last_processed_block', start_block))`. -/
def loadStateBody (startBlock : Int) (fs : FileState) : Except PyErr Int :=
  match fs with
  | .absent => .error .fileNotFound
  | .unparseable => .error .jsonDecodeError
  | .content v =>
    match pyDictGet v stateKey (.jnum startBlock) with
    | .error e => .error e
    | .ok g => pyInt g

/-- `EventListener._load_state`: the `try:` body with
`except (FileNotFoundError, json.JSONDecodeError)` returning the
configured start block. Any other exception propagates. -/
def loadState (startBlock : Int) (fs : FileState) : Except PyErr Int :=
  match loadStateBody startBlock fs with
  | .error .fileNotFound => .ok startBlock
  | .error .jsonDecodeError => .ok startBlock
  | r => r

/-- `EventListener._save_state`: the file content written by
`json.dump({'last_processed_block': self.last_processed_block}, f)`. -/
def savedState (h : Int) : FileState :=
  .content (.jobj [(stateKey, .jnum h)])

/-! ### Gas price selection (`EventProcessor._get_gas_price`)

The external oracle pipeline (`requests.get`, `raise_for_status`,
`json()['fast']`) is one fallible collaborator outcome; the destination
node's own `eth.gas_price` query is another; `dest_connector.web3` may
be `None` when the initial connection failed. -/

/-- Provenance tag of a gas quote. -/
inductive GasSource where
  | externalOracle
  | nodeSuggested
  | hardcodedFloor
  deriving Repr, DecidableEq

/-- A gas price together with where it came from. -/
structure GasQuote where
  price : Nat
  source : GasSource
  deriving Repr, DecidableEq

/-- `Web3.to_wei(x, 'gwei')`. -/
def toWeiGwei (gwei : Nat) : Nat := gwei * 1000000000

/-- `EventProcessor._get_gas_price`. `oracle` is the outcome of the
external-API pipeline (`ok` holds the `'fast'` gwei value); `destW3` is
`none` when `dest_connector.web3` is `None`, otherwise it carries the
outcome of the node's `eth.gas_price` query. The `except:` clause
catches only the oracle pipeline's exceptions; a failure of the node
query itself occurs inside the handler and propagates. -/
def getGasPrice (oracle : Except PyErr Nat) (destW3 : Option (Except PyErr Nat)) :
    Except PyErr GasQuote :=
  match oracle with
  | .ok fast => .ok ⟨toWeiGwei fast, .externalOracle⟩
  | .error _ =>
    match destW3 with
    | some (.ok g) => .ok ⟨g, .nodeSuggested⟩
    | some (.error e) => .error e
    | none => .ok ⟨toWeiGwei 20, .hardcodedFloor⟩

/-! ### Event processing (`EventProcessor.process_event`)

A `TokensLocked` log entry always carries the decoded event arguments,
a transaction hash and a block number, so the model makes them fields
of the event record. The destination-chain collaborator outcomes that
each `process_event` call observes are gathered in `ProcEnv`. -/

/-- A decoded `TokensLocked` event as returned by
`event_filter.get_all_entries()`. -/
structure LockEvent where
  fromAddr : String
  toChainId : Nat
  amount : Nat
  nonce : Nat
  blockNumber : Nat
  transactionHash : String
  deriving Repr, DecidableEq

/-- The parts of `EventProcessor` state that `process_event` consults:
whether `dest_bridge_contract`, `relayer_account` and
`dest_connector.web3` are non-`None`, and the relayer's address. -/
structure ProcessorState where
  hasContract : Bool
  hasAccount : Bool
  hasW3 : Bool
  relayerAddress : String
  deriving Repr, DecidableEq

/-- Collaborator outcomes observed by one `process_event` call:
`eth.get_transaction_count`, the external gas oracle pipeline, the
destination node's `eth.gas_price` query, and `sign_transaction`. -/
structure ProcEnv where
  txCount : Except PyErr Nat
  oracle : Except PyErr Nat
  nodeGas : Except PyErr Nat
  signing : Except PyErr Unit
  deriving Repr

/-- Destination-chain RPC actions that `process_event` can perform. -/
inductive RpcEffect where
  | getTransactionCount
  | queryGasPrice
  | signTransaction
  | sendRawTransaction
  deriving Repr, DecidableEq

/-- The transaction built by
`dest_bridge_contract.functions.unlockTokens(...).build_transaction(...)`. -/
structure UnlockTx where
  recipient : String
  amount : Nat
  sourceNonce : Nat
  sender : String
  txNonce : Nat
  gas : Nat
  gasPrice : Nat
  deriving Repr, DecidableEq

/-- Outcome of one `process_event` call: early return because the
destination components are uninitialized, a caught per-event failure
(logged with the event's transaction hash), or a built and signed
transaction. Each outcome carries the RPC effects performed. -/
inductive Outcome where
  | skippedUninit
  | failed (txHash : String) (e : PyErr) (effects : List RpcEffect)
  | signed (tx : UnlockTx) (effects : List RpcEffect)
  deriving Repr, DecidableEq

/-- The body of `process_event`'s `try:` block: read the event args,
build the transaction (evaluating `get_transaction_count` then
`_get_gas_price` for its fields, with the fixed `'gas': 200000`), and
sign it. Returns the effects performed alongside the result. -/
def processEventBody (pst : ProcessorState) (env : ProcEnv) (e : LockEvent) :
    List RpcEffect × Except PyErr UnlockTx :=
  match env.txCount with
  | .error err => ([.getTransactionCount], .error err)
  | .ok cnt =>
    match getGasPrice env.oracle (some env.nodeGas) with
    | .error err => ([.getTransactionCount, .queryGasPrice], .error err)
    | .ok q =>
      match env.signing with
      | .error err => ([.getTransactionCount, .queryGasPrice], .error err)
      | .ok _ =>
        ([.getTransactionCount, .queryGasPrice, .signTransaction],
         .ok ⟨e.fromAddr, e.amount, e.nonce, pst.relayerAddress, cnt, 200000, q.price⟩)

/-- `EventProcessor.process_event`: the initialization guard returns
early; otherwise the `try:` body runs and `except Exception` turns any
failure into a logged outcome naming `event['transactionHash']`. The
`Except` layer is the exception channel visible to the caller's `for`
loop: an `.error` here would abort the enclosing batch loop. -/
def processEvent (pst : ProcessorState) (env : ProcEnv) (e : LockEvent) :
    Except PyErr Outcome :=
  if ¬(pst.hasContract ∧ pst.hasAccount ∧ pst.hasW3) then
    .ok .skippedUninit
  else
    match processEventBody pst env e with
    | (effs, .error err) => .ok (.failed e.transactionHash err effs)
    | (effs, .ok tx) => .ok (.signed tx effs)

/-- The `for event in events:` loop of `_process_block_range`, with
Python semantics: an exception escaping the loop body stops the loop
and propagates (the `i`-th event observes the collaborator outcomes
`penv i`). -/
def forLoopProcess (pst : ProcessorState) (penv : Nat → ProcEnv) :
    List LockEvent → Nat → Except PyErr (List Outcome)
  | [], _ => .ok []
  | e :: rest, i =>
    match processEvent pst (penv i) e with
    | .error err => .error err
    | .ok o =>
      match forLoopProcess pst penv rest (i + 1) with
      | .error err => .error err
      | .ok os => .ok (o :: os)

/-! ### The poll loop (`EventListener.run` / `_process_block_range`)

Each iteration of the `while True:` loop is a cycle. A `CycleEnv`
records what the collaborators do during that cycle: connectivity, the
latest-height query, the log query's outcome, per-event collaborator
outcomes, whether the state-file write raises, and an optional
exception arriving in the cycle (`KeyboardInterrupt` or an unclassified
one caught by the loop's `except Exception`). -/

/-- The `listener_settings` / `source_chain` configuration the loop
reads. -/
structure ListenerConfig where
  pollIntervalSeconds : Nat
  batchSize : Nat
  startBlock : Nat
  deriving Repr, DecidableEq

/-- Outcome of the `TokensLocked` log query
(`create_filter` + `get_all_entries`) over a block range. -/
inductive LogQueryResult where
  | blockNotFound
  | otherError
  | success (events : List LockEvent)
  deriving Repr, DecidableEq

/-- Observable result of `_process_block_range`: the source contract
was never initialized; `BlockNotFound` was caught (reorg suspected,
pause); any other query exception was caught; the query returned no
events; or the events were processed with the given outcomes. -/
inductive ScanResult where
  | noContract
  | reorgPause
  | queryFailed
  | noEvents
  | processed (outcomes : List Outcome)
  deriving Repr, DecidableEq

/-- `EventListener._process_block_range`. An exception escaping the
event loop would be caught by the same `except Exception` as a query
failure, hence the shared `queryFailed` result. -/
def processBlockRange (hasSourceContract : Bool) (pst : ProcessorState)
    (q : LogQueryResult) (penv : Nat → ProcEnv) : ScanResult :=
  if ¬hasSourceContract then .noContract
  else
    match q with
    | .blockNotFound => .reorgPause
    | .otherError => .queryFailed
    | .success evs =>
      if evs.isEmpty then .noEvents
      else
        match forLoopProcess pst penv evs 0 with
        | .error _ => .queryFailed
        | .ok os => .processed os

/-- An exception arriving inside a cycle of `run`: the shutdown signal,
or an unclassified exception handled by the loop's `except Exception`. -/
inductive InjectedExc where
  | keyboardInterrupt
  | unclassified
  deriving Repr, DecidableEq

/-- The mutable state of `EventListener` that the loop touches. -/
structure ListenerState where
  lastProcessedBlock : Nat
  hasSourceContract : Bool
  proc : ProcessorState
  deriving Repr, DecidableEq

/-- Collaborator behaviour during one cycle of `run`. -/
structure CycleEnv where
  injected : Option InjectedExc
  connected : Bool
  latest : Option Nat
  query : LogQueryResult
  penv : Nat → ProcEnv
  saveRaises : Bool

/-- Observable result of one cycle of `run`: the listener state
afterwards, the height persisted by `_save_state` (if any), the length
of the sleep ending the cycle, the block range scanned (if any), the
scan's result, and whether the loop exits. -/
structure CycleResult where
  state : ListenerState
  saved : Option Nat
  sleepSeconds : Nat
  scanned : Option (Nat × Nat)
  scan : Option ScanResult
  exit : Bool

/-- One iteration of `EventListener.run`'s `while True:` body. On the
happy path the loop computes `from_block = last_processed_block + 1`,
`to_block = min(latest_block, from_block + batch_size - 1)`, skips when
`from_block > latest_block`, otherwise scans and then unconditionally
sets `last_processed_block = to_block` and saves. A `_save_state`
failure is an unclassified exception: it reaches the outer
`except Exception`, which sleeps twice the poll interval; the in-memory
checkpoint was already advanced. `KeyboardInterrupt` breaks the loop;
any other injected exception also hits the backoff branch. (The extra
sleep `_process_block_range` performs internally on `BlockNotFound` is
not part of `sleepSeconds`, which records the sleep ending the cycle.) -/
def runCycle (cfg : ListenerConfig) (st : ListenerState) (env : CycleEnv) : CycleResult :=
  match env.injected with
  | some .keyboardInterrupt =>
    { state := st, saved := none, sleepSeconds := 0,
      scanned := none, scan := none, exit := true }
  | some .unclassified =>
    { state := st, saved := none, sleepSeconds := 2 * cfg.pollIntervalSeconds,
      scanned := none, scan := none, exit := false }
  | none =>
    if ¬env.connected then
      { state := st, saved := none, sleepSeconds := cfg.pollIntervalSeconds,
        scanned := none, scan := none, exit := false }
    else
      match env.latest with
      | none =>
        { state := st, saved := none, sleepSeconds := cfg.pollIntervalSeconds,
          scanned := none, scan := none, exit := false }
      | some latest =>
        let fromBlock := st.lastProcessedBlock + 1
        let toBlock := min latest (fromBlock + cfg.batchSize - 1)
        if latest < fromBlock then
          { state := st, saved := none, sleepSeconds := cfg.pollIntervalSeconds,
            scanned := none, scan := none, exit := false }
        else
          let sr := processBlockRange st.hasSourceContract st.proc env.query env.penv
          let st2 := { st with lastProcessedBlock := toBlock }
          if env.saveRaises then
            { state := st2, saved := none, sleepSeconds := 2 * cfg.pollIntervalSeconds,
              scanned := some (fromBlock, toBlock), scan := some sr, exit := false }
          else
            { state := st2, saved := some toBlock, sleepSeconds := cfg.pollIntervalSeconds,
              scanned := some (fromBlock, toBlock), scan := some sr, exit := false }

/-- The results of running successive cycles against the environment
list, stopping when a cycle exits the loop. -/
def cycleResults (cfg : ListenerConfig) (st : ListenerState) :
    List CycleEnv → List CycleResult
  | [] => []
  | env :: rest =>
    let r := runCycle cfg st env
    if r.exit then [r] else r :: cycleResults cfg r.state rest

/-- The heights persisted by `_save_state` over a run, in order. -/
def savedHeights (rs : List CycleResult) : List Nat :=
  rs.filterMap (·.saved)

/-- The upper bounds of the block ranges scanned over a run, in order. -/
def scannedTos (rs : List CycleResult) : List Nat :=
  rs.filterMap (fun r => r.scanned.map Prod.snd)

/-- The upper bounds of the block ranges whose log query completed
fully and successfully (returned a list of events, empty or not). -/
def successfulScanTos (rs : List CycleResult) : List Nat :=
  rs.filterMap (fun r =>
    match r.scan, r.scanned with
    | some .noEvents, some p => some p.2
    | some (.processed _), some p => some p.2
    | _, _ => none)

/-! ### Configuration loader (`loader.py`, `ConfigLoader`)

Python dicts are modelled as association lists in insertion order with
Python dict assignment semantics (`dictSet`): an existing key is
updated in place, a new key is appended. The merge hierarchy of
`ConfigLoader.load` and the env-var nesting of `_load_from_env` are
embedded purely; a separate explicit-heap embedding of `_deep_merge`
(`deepMergeH`) is used to settle that the function mutates none of the
pre-existing dict objects. -/

/-- A scalar configuration value as produced by YAML or `_parse_value`
(a float is kept as its literal text — its numeric value is never
computed with). -/
inductive Scalar where
  | s (v : String)
  | i (v : Int)
  | b (v : Bool)
  | f (v : String)
  deriving Repr, DecidableEq

/-- A configuration value: a scalar or a nested dict. -/
inductive CVal where
  | scalar (v : Scalar)
  | dict (d : List (String × CVal))
  deriving Repr

/-- Lookup in a Python dict: the value of the entry with this key. -/
def dlookup {α : Type} : List (String × α) → String → Option α
  | [], _ => none
  | (k', v) :: rest, k => if k' = k then some v else dlookup rest k

/-- Python dict assignment `d[k] = v`: updates the entry in place
(keeping its position) if the key exists, appends otherwise. Keys of a
Python dict are unique, so replacing the first occurrence is exact. -/
def dictSet {α : Type} : List (String × α) → String → α → List (String × α)
  | [], k, v => [(k, v)]
  | (k', w) :: rest, k, v =>
    if k' = k then (k, v) :: rest else (k', w) :: dictSet rest k v

/-- `ConfigLoader._deep_merge`: `merged = base.copy()`, then for each
override entry, a dict value meeting an existing dict value in `merged`
is merged recursively; anything else overwrites. -/
def deepMerge : List (String × CVal) → List (String × CVal) → List (String × CVal)
  | merged, [] => merged
  | merged, (k, .dict od) :: rest =>
    (match dlookup merged k with
     | some (.dict bd) => deepMerge (dictSet merged k (.dict (deepMerge bd od))) rest
     | _ => deepMerge (dictSet merged k (.dict od)) rest)
  | merged, (k, .scalar sv) :: rest => deepMerge (dictSet merged k (.scalar sv)) rest

/-- Digit check for a whole character list. -/
def isDigits : List Char → Bool
  | [] => true
  | c :: cs => (digitVal c).isSome && isDigits cs

/-- Scans for Python's simple decimal float shape after an optional
sign: digits, a dot, digits, with at least one digit overall (exponent
and `inf`/`nan` forms are not modelled; they do not affect the merge
properties verified here). -/
def floatScan : List Char → Bool → Bool
  | [], _ => false
  | '.' :: cs, seen => isDigits cs && (seen || !cs.isEmpty)
  | c :: cs, _ => (digitVal c).isSome && floatScan cs true

/-- Python `float(v)` succeeds on this string (decimal shapes). -/
def isFloatString (v : String) : Bool :=
  match v.data with
  | '-' :: rest => floatScan rest false
  | '+' :: rest => floatScan rest false
  | cs => floatScan cs false

/-- `ConfigLoader._parse_value`: case-insensitive booleans, then
`int(value)`, then `float(value)`, else the string itself. -/
def parseValue (v : String) : CVal :=
  if v.toLower = "true" then .scalar (.b true)
  else if v.toLower = "false" then .scalar (.b false)
  else
    match pyStrToInt v with
    | some n => .scalar (.i n)
    | none => if isFloatString v then .scalar (.f v) else .scalar (.s v)

/-- The nested insertion of `_load_from_env`'s inner loop: walk the
path, creating `{}` for missing parts; descending into an existing
non-dict value makes the following item assignment raise `TypeError`
(`none`). -/
def insertPath : List (String × CVal) → List String → CVal → Option (List (String × CVal))
  | d, [], _ => some d
  | d, [last], v => some (dictSet d last v)
  | d, part :: rest, v =>
    match dlookup d part with
    | some (.dict sub) =>
      (match insertPath sub rest v with
       | some sub' => some (dictSet d part (.dict sub'))
       | none => none)
    | some _ => none
    | none =>
      (match insertPath [] rest v with
       | some sub' => some (dictSet d part (.dict sub'))
       | none => none)

/-- `ConfigLoader._load_from_env`: keeps the environment entries whose
key starts with the prefix, strips it, lowercases, splits on `__`, and
inserts the parsed value at that path. -/
def loadFromEnv (pfx : String) (environ : List (String × String)) :
    Option (List (String × CVal)) :=
  environ.foldl
    (fun acc kv =>
      match acc with
      | none => none
      | some cfgd =>
        if kv.1.startsWith pfx then
          insertPath cfgd ((kv.1.drop pfx.length).toLower.splitOn "__") (parseValue kv.2)
        else some cfgd)
    (some [])

/-- `ConfigLoader.load`: base config, overridden by the
environment-specific config, overridden by the environment variables
(the two YAML inputs are parameters: `_load_yaml_file` already maps a
missing or invalid file to `{}` at the boundary). -/
def load (base envCfg : List (String × CVal)) (pfx : String)
    (environ : List (String × String)) : Option (List (String × CVal)) :=
  match loadFromEnv pfx environ with
  | none => none
  | some envVars => some (deepMerge (deepMerge base envCfg) envVars)

/-! #### Heap embedding of `_deep_merge` for the mutation question -/

/-- An address of a Python dict object. -/
abbrev Addr := Nat

/-- A Python value as stored in a dict: a scalar, or a reference to a
dict object on the heap. -/
inductive PyVal where
  | scalar (v : Scalar)
  | ref (a : Addr)
  deriving Repr, DecidableEq

/-- A heap of dict objects with a bump allocator. -/
structure Heap where
  objs : List (Addr × List (String × PyVal))
  next : Addr

/-- Reads a dict object from an address map. -/
def hget : List (Addr × List (String × PyVal)) → Addr → Option (List (String × PyVal))
  | [], _ => none
  | (a', d) :: rest, a => if a' = a then some d else hget rest a

/-- Overwrites a dict object in an address map. -/
def hset : List (Addr × List (String × PyVal)) → Addr → List (String × PyVal) →
    List (Addr × List (String × PyVal))
  | [], _, _ => []
  | (a', d') :: rest, a, d => if a' = a then (a, d) :: rest else (a', d') :: hset rest a d

/-- Reads the dict object at an address. -/
def Heap.get (h : Heap) (a : Addr) : Option (List (String × PyVal)) :=
  hget h.objs a

/-- Overwrites the dict object at an address (in-place mutation). -/
def Heap.set (h : Heap) (a : Addr) (d : List (String × PyVal)) : Heap :=
  ⟨hset h.objs a d, h.next⟩

/-- Allocates a fresh dict object (`dict.copy()` / `{}`). -/
def Heap.alloc (h : Heap) (d : List (String × PyVal)) : Heap × Addr :=
  (⟨h.objs ++ [(h.next, d)], h.next + 1⟩, h.next)

mutual

/-- `ConfigLoader._deep_merge` over explicit heap state:
`merged = base.copy()` allocates, then the override's items are merged
into the fresh object. `fuel` bounds the recursion depth (Python would
recurse forever on a cyclic input). -/
def deepMergeH : Nat → Heap → Addr → Addr → Option (Heap × Addr)
  | 0, _, _, _ => none
  | fuel + 1, h, base, override =>
    match h.get base, h.get override with
    | some bd, some od =>
      (match mergeItems fuel ⟨h.objs ++ [(h.next, bd)], h.next + 1⟩ h.next od with
       | some h2 => some (h2, h.next)
       | none => none)
    | _, _ => none
termination_by fuel _ _ _ => (fuel, 0)

/-- The `for key, value in override.items():` loop of `_deep_merge`,
mutating only the freshly allocated `merged` object at address `m`. -/
def mergeItems : Nat → Heap → Addr → List (String × PyVal) → Option Heap
  | _, h, _, [] => some h
  | fuel, h, m, (k, v) :: rest =>
    match h.get m with
    | none => none
    | some md =>
      match v, dlookup md k with
      | .ref ov, some (.ref bv) =>
        (match deepMergeH fuel h bv ov with
         | some (h', r) =>
           (match h'.get m with
            | some md' => mergeItems fuel (h'.set m (dictSet md' k (.ref r))) m rest
            | none => none)
         | none => none)
      | _, _ => mergeItems fuel (h.set m (dictSet md k v)) m rest
termination_by fuel _ _ es => (fuel, es.length + 1)

end

end Bridge

namespace Bridge

/-- The in-memory checkpoint never decreases across one cycle. -/
theorem runCycle_checkpoint_mono (cfg : ListenerConfig) (st : ListenerState) (env : CycleEnv) :
    st.lastProcessedBlock ≤ (runCycle cfg st env).state.lastProcessedBlock := by
  obtain ⟨lpb, hsc, pst⟩ := st
  obtain ⟨inj, conn, latest, q, penv, sv⟩ := env
  rcases inj with _ | exc
  · rcases latest with _ | L
    · by_cases hc : conn <;> simp [runCycle, hc]
    · by_cases hc : conn
      · by_cases hlt : L < lpb + 1
        · simp [runCycle, hc, hlt]
        · by_cases hsv : sv <;> simp [runCycle, hc, hlt, hsv] <;> omega
      · simp [runCycle, hc]
  · cases exc <;> simp [runCycle]

/-- A height is persisted only as the new in-memory checkpoint, which
is the upper bound of the range scanned that cycle. -/
theorem runCycle_saved_is_scanned_to (cfg : ListenerConfig) (st : ListenerState)
    (env : CycleEnv) (v : Nat) (h : (runCycle cfg st env).saved = some v) :
    v = (runCycle cfg st env).state.lastProcessedBlock ∧
    ∃ f, (runCycle cfg st env).scanned = some (f, v) := by
  obtain ⟨lpb, hsc, pst⟩ := st
  obtain ⟨inj, conn, latest, q, penv, sv⟩ := env
  rcases inj with _ | exc
  · rcases latest with _ | L
    · by_cases hc : conn <;> simp [runCycle, hc] at h
    · by_cases hc : conn
      · by_cases hlt : L < lpb + 1
        · simp [runCycle, hc, hlt] at h
        · by_cases hsv : sv
          · simp [runCycle, hc, hlt, hsv] at h
          · simp [runCycle, hc, hlt, hsv] at h ⊢
            aesop
      · simp [runCycle, hc] at h
  · cases exc <;> simp [runCycle] at h

/-- A cycle that exits the loop persists nothing. -/
theorem runCycle_exit_saves_nothing (cfg : ListenerConfig) (st : ListenerState)
    (env : CycleEnv) (h : (runCycle cfg st env).exit = true) :
    (runCycle cfg st env).saved = none := by
  obtain ⟨lpb, hsc, pst⟩ := st
  obtain ⟨inj, conn, latest, q, penv, sv⟩ := env
  rcases inj with _ | exc
  · rcases latest with _ | L
    · by_cases hc : conn <;> simp [runCycle, hc] at h
    · by_cases hc : conn
      · by_cases hlt : L < lpb + 1
        · simp [runCycle, hc, hlt] at h
        · by_cases hsv : sv <;> simp [runCycle, hc, hlt, hsv] at h
      · simp [runCycle, hc] at h
  · cases exc
    · rfl
    · simp [runCycle] at h

/-- Joint invariant for a run: every persisted height is at least the
starting checkpoint, the persisted heights are non-decreasing, and each
of them is the upper bound of a range scanned during the run. -/
theorem cycleResults_saved_invariant (cfg : ListenerConfig) :
    ∀ (envs : List CycleEnv) (st : ListenerState),
      (∀ v ∈ savedHeights (cycleResults cfg st envs), st.lastProcessedBlock ≤ v) ∧
      List.Chain' (· ≤ ·) (savedHeights (cycleResults cfg st envs)) ∧
      (∀ v ∈ savedHeights (cycleResults cfg st envs),
        v ∈ scannedTos (cycleResults cfg st envs)) := by
  intro envs
  induction envs with
  | nil => exact fun st => ⟨by simp [cycleResults, savedHeights], by simp [cycleResults, savedHeights], by simp [cycleResults, savedHeights]⟩
  | cons env rest ih =>
    intro st
    by_cases hexit : (runCycle cfg st env).exit = true
    · have hnone := runCycle_exit_saves_nothing cfg st env hexit
      simp only [cycleResults, hexit, if_true]
      refine ⟨?_, ?_, ?_⟩ <;> simp [savedHeights, hnone]
    · have hmono := runCycle_checkpoint_mono cfg st env
      obtain ⟨ih1, ih2, ih3⟩ := ih (runCycle cfg st env).state
      simp only [cycleResults, hexit, if_false, Bool.false_eq_true]
      rcases hsaved : (runCycle cfg st env).saved with _ | v
      · refine ⟨?_, ?_, ?_⟩
        · intro v hv
          simp only [savedHeights, List.filterMap_cons, hsaved] at hv
          exact le_trans hmono (ih1 v hv)
        · simpa [savedHeights, List.filterMap_cons, hsaved] using ih2
        · intro v hv
          simp only [savedHeights, List.filterMap_cons, hsaved] at hv
          have := ih3 v hv
          simp only [scannedTos, List.filterMap_cons] at this ⊢
          rcases h : (runCycle cfg st env).scanned with _ | p <;> simp [h] at this ⊢
          · exact this
          · exact Or.inr this
      · obtain ⟨hveq, f, hscan⟩ := runCycle_saved_is_scanned_to cfg st env v hsaved
        refine ⟨?_, ?_, ?_⟩
        · intro w hw
          simp only [savedHeights, List.filterMap_cons, hsaved] at hw
          rcases List.mem_cons.mp hw with hw | hw
          · omega
          · exact le_trans hmono (ih1 w hw)
        · simp only [savedHeights, List.filterMap_cons, hsaved]
          rw [List.chain'_cons']
          refine ⟨?_, ih2⟩
          intro b hb
          have hbmem : b ∈ savedHeights (cycleResults cfg (runCycle cfg st env).state rest) :=
            List.mem_of_mem_head? hb
          have := ih1 b hbmem
          omega
        · intro w hw
          simp only [savedHeights, List.filterMap_cons, hsaved] at hw
          simp only [scannedTos, List.filterMap_cons, hscan, Option.map_some]
          rcases List.mem_cons.mp hw with hw | hw
          · subst hw; exact List.mem_cons_self _ _
          · exact List.mem_cons_of_mem _ (ih3 w hw)

/-- C1: the checkpoint is NOT left unchanged by a cycle whose log query
fails. With checkpoint 99, latest height 150 and batch size 100, a
`BlockNotFound` failure on range `[100, 150]` is swallowed inside
`_process_block_range`, after which `run` still sets and persists
`last_processed_block = 150`; the next cycle requests nothing (rather
than re-requesting `[100, 150]`). Any other query failure behaves the
same way. This contradicts the code's own "Will retry" log message and
comment. -/
theorem checkpoint_advances_despite_failed_query :
    let cfg : ListenerConfig := ⟨15, 100, 1000000⟩
    let pst : ProcessorState := ⟨true, true, true, "0xRelayer"⟩
    let penv : Nat → ProcEnv := fun _ => ⟨.ok 0, .ok 1, .ok 1, .ok ()⟩
    let st : ListenerState := ⟨99, true, pst⟩
    let reorgEnv : CycleEnv := ⟨none, true, some 150, .blockNotFound, penv, false⟩
    let failEnv : CycleEnv := ⟨none, true, some 150, .otherError, penv, false⟩
    (runCycle cfg st reorgEnv).scanned = some (100, 150) ∧
    (runCycle cfg st reorgEnv).scan = some .reorgPause ∧
    (runCycle cfg st reorgEnv).saved = some 150 ∧
    (runCycle cfg st reorgEnv).state.lastProcessedBlock = 150 ∧
    (runCycle cfg (runCycle cfg st reorgEnv).state reorgEnv).scanned = none ∧
    (runCycle cfg st failEnv).saved = some 150 := by
  exact ⟨rfl, rfl, rfl, rfl, rfl, rfl⟩

/-- C2 counterexample: the persisted checkpoint can equal a `to` whose
range query did NOT complete successfully — one cycle with a
`BlockNotFound` failure on `[100, 150]` persists 150, which is not the
bound of any successfully queried range. -/
theorem saved_height_without_successful_query :
    150 ∈ savedHeights (cycleResults ⟨15, 100, 1000000⟩
      ⟨99, true, ⟨true, true, true, "0xRelayer"⟩⟩
      [⟨none, true, some 150, .blockNotFound, fun _ => ⟨.ok 0, .ok 1, .ok 1, .ok ()⟩, false⟩]) ∧
    150 ∉ successfulScanTos (cycleResults ⟨15, 100, 1000000⟩
      ⟨99, true, ⟨true, true, true, "0xRelayer"⟩⟩
      [⟨none, true, some 150, .blockNotFound, fun _ => ⟨.ok 0, .ok 1, .ok 1, .ok ()⟩, false⟩]) := by
  exact ⟨List.mem_cons_self _ _, by decide⟩

/-- C2 amended: over any sequence of cycles, the sequence of persisted
checkpoint values is monotonically non-decreasing, and every persisted
value is the `to` bound of a range that was actually scanned that run
(whether or not its log query succeeded). -/
theorem checkpoint_monotone_and_scanned :
    (∀ (cfg : ListenerConfig) (st : ListenerState) (envs : List CycleEnv),
      List.Chain' (· ≤ ·) (savedHeights (cycleResults cfg st envs))) ∧
    (∀ (cfg : ListenerConfig) (st : ListenerState) (envs : List CycleEnv) (v : Nat),
      v ∈ savedHeights (cycleResults cfg st envs) →
      v ∈ scannedTos (cycleResults cfg st envs)) :=
  ⟨fun cfg st envs => (cycleResults_saved_invariant cfg envs st).2.1,
   fun cfg st envs v hv => (cycleResults_saved_invariant cfg envs st).2.2 v hv⟩

/-- C2 witness: a persisted height from a concrete successful cycle is
among the scanned range bounds. -/
theorem checkpoint_monotone_and_scanned_witness :
    150 ∈ scannedTos (cycleResults ⟨15, 100, 1000000⟩
      ⟨99, true, ⟨true, true, true, "0xRelayer"⟩⟩
      [⟨none, true, some 150, .success [], fun _ => ⟨.ok 0, .ok 1, .ok 1, .ok ()⟩, false⟩]) :=
  checkpoint_monotone_and_scanned.2 ⟨15, 100, 1000000⟩
    ⟨99, true, ⟨true, true, true, "0xRelayer"⟩⟩
    [⟨none, true, some 150, .success [], fun _ => ⟨.ok 0, .ok 1, .ok 1, .ok ()⟩, false⟩]
    150 (List.mem_cons_self _ _)

/-- C3: with checkpoint `C`, latest height `L` and batch size `B ≥ 1`,
a connected cycle scans exactly `[C+1, min L (C+B)]` when `C+1 ≤ L` —
a non-empty range of length at most `B` — and when `C+1 > L` it scans
nothing, leaves the checkpoint unchanged and persists nothing. -/
theorem next_batch_bounds (cfg : ListenerConfig) (st : ListenerState) (L : Nat)
    (q : LogQueryResult) (penv : Nat → ProcEnv) (hB : 1 ≤ cfg.batchSize) :
    (st.lastProcessedBlock + 1 ≤ L →
      (runCycle cfg st ⟨none, true, some L, q, penv, false⟩).scanned =
        some (st.lastProcessedBlock + 1, min L (st.lastProcessedBlock + cfg.batchSize)) ∧
      st.lastProcessedBlock + 1 ≤ min L (st.lastProcessedBlock + cfg.batchSize) ∧
      min L (st.lastProcessedBlock + cfg.batchSize) + 1 - (st.lastProcessedBlock + 1) ≤
        cfg.batchSize) ∧
    (L < st.lastProcessedBlock + 1 →
      (runCycle cfg st ⟨none, true, some L, q, penv, false⟩).scanned = none ∧
      (runCycle cfg st ⟨none, true, some L, q, penv, false⟩).state.lastProcessedBlock =
        st.lastProcessedBlock ∧
      (runCycle cfg st ⟨none, true, some L, q, penv, false⟩).saved = none) := by
  obtain ⟨lpb, hsc, pst⟩ := st
  constructor
  · intro hle
    have hle' : lpb + 1 ≤ L := hle
    have hlt : ¬L < lpb + 1 := by omega
    have h1 : lpb + 1 + cfg.batchSize - 1 = lpb + cfg.batchSize := by omega
    refine ⟨?_, ?_, ?_⟩
    · simp [runCycle, hlt, h1]
    · show lpb + 1 ≤ min L (lpb + cfg.batchSize)
      omega
    · show min L (lpb + cfg.batchSize) + 1 - (lpb + 1) ≤ cfg.batchSize
      omega
  · intro hgt
    refine ⟨?_, ?_, ?_⟩ <;> simp [runCycle, hgt]

/-- C3 witness: checkpoint 1000000, latest 1000250, batch size 100 —
the scanned range is `[1000001, 1000100]`, non-empty and of length at
most 100. -/
theorem next_batch_bounds_witness :
    (runCycle ⟨15, 100, 1000000⟩ ⟨1000000, true, ⟨true, true, true, "0xRelayer"⟩⟩
      ⟨none, true, some 1000250, .success [], fun _ => ⟨.ok 0, .ok 1, .ok 1, .ok ()⟩,
        false⟩).scanned = some (1000001, min 1000250 1000100) ∧
    1000001 ≤ min 1000250 1000100 ∧
    min 1000250 1000100 + 1 - 1000001 ≤ 100 :=
  (next_batch_bounds ⟨15, 100, 1000000⟩ ⟨1000000, true, ⟨true, true, true, "0xRelayer"⟩⟩
    1000250 (.success []) (fun _ => ⟨.ok 0, .ok 1, .ok 1, .ok ()⟩)
    (by decide)).1 (by decide)

/-- C8: an unclassified exception inside a cycle — whether injected at
the top of the cycle or raised by `_save_state` after a scan — never
terminates the loop and triggers a sleep of twice the poll interval;
the loop exits only on the shutdown signal (`KeyboardInterrupt`). -/
theorem loop_survives_unclassified_exception :
    (∀ (cfg : ListenerConfig) (st : ListenerState) (env : CycleEnv),
      env.injected = some .unclassified →
      (runCycle cfg st env).exit = false ∧
      (runCycle cfg st env).sleepSeconds = 2 * cfg.pollIntervalSeconds) ∧
    (∀ (cfg : ListenerConfig) (st : ListenerState) (env : CycleEnv) (L : Nat),
      env.injected = none → env.connected = true → env.latest = some L →
      st.lastProcessedBlock + 1 ≤ L → env.saveRaises = true →
      (runCycle cfg st env).exit = false ∧
      (runCycle cfg st env).sleepSeconds = 2 * cfg.pollIntervalSeconds) ∧
    (∀ (cfg : ListenerConfig) (st : ListenerState) (env : CycleEnv),
      (runCycle cfg st env).exit = true → env.injected = some .keyboardInterrupt) := by
  refine ⟨?_, ?_, ?_⟩
  · intro cfg st env hinj
    obtain ⟨inj, conn, latest, q, penv, sv⟩ := env
    simp only at hinj
    subst hinj
    simp [runCycle]
  · intro cfg st env L hinj hconn hlat hle hsv
    obtain ⟨lpb, hsc, pst⟩ := st
    obtain ⟨inj, conn, latest, q, penv, sv⟩ := env
    simp only at hinj hconn hlat hsv
    subst hinj; subst hconn; subst hlat; subst hsv
    have hle' : lpb + 1 ≤ L := hle
    have hlt : ¬L < lpb + 1 := by omega
    simp [runCycle, hlt]
  · intro cfg st env hexit
    obtain ⟨lpb, hsc, pst⟩ := st
    obtain ⟨inj, conn, latest, q, penv, sv⟩ := env
    rcases inj with _ | exc
    · rcases latest with _ | L
      · by_cases hc : conn <;> simp [runCycle, hc] at hexit
      · by_cases hc : conn
        · by_cases hlt : L < lpb + 1
          · simp [runCycle, hc, hlt] at hexit
          · by_cases hsv2 : sv <;> simp [runCycle, hc, hlt, hsv2] at hexit
        · simp [runCycle, hc] at hexit
    · cases exc
      · rfl
      · simp [runCycle] at hexit

/-- C8 witness: a concrete cycle hit by an unclassified exception keeps
running and sleeps 30 seconds (twice the 15-second poll interval). -/
theorem loop_survives_unclassified_exception_witness :
    (runCycle ⟨15, 100, 1000000⟩ ⟨99, true, ⟨true, true, true, "0xRelayer"⟩⟩
      ⟨some .unclassified, true, some 150, .success [],
        fun _ => ⟨.ok 0, .ok 1, .ok 1, .ok ()⟩, false⟩).exit = false ∧
    (runCycle ⟨15, 100, 1000000⟩ ⟨99, true, ⟨true, true, true, "0xRelayer"⟩⟩
      ⟨some .unclassified, true, some 150, .success [],
        fun _ => ⟨.ok 0, .ok 1, .ok 1, .ok ()⟩, false⟩).sleepSeconds = 2 * 15 :=
  loop_survives_unclassified_exception.1 ⟨15, 100, 1000000⟩
    ⟨99, true, ⟨true, true, true, "0xRelayer"⟩⟩
    ⟨some .unclassified, true, some 150, .success [],
      fun _ => ⟨.ok 0, .ok 1, .ok 1, .ok ()⟩, false⟩ rfl

/-- C9: saving a height `h` and loading it back yields `h`. -/
theorem save_load_round_trip (startBlock : Int) (h : Nat) :
    loadState startBlock (savedState h) = .ok (h : Int) := by
  simp [loadState, loadStateBody, savedState, pyDictGet, stateKey, pyInt, List.lookup]

/-- C5 counterexample: a state file holding the valid JSON value `[]`
(readable, but corrupt as a checkpoint) makes `_load_state` raise
`AttributeError` instead of returning the configured start height. -/
theorem loadState_raises_on_json_array :
    loadState 1000000 (.content (.jarr [])) = .error .attributeError := by
  rfl

/-- C5 amended: `_load_state` returns the persisted value when the file
holds a JSON object with an int-convertible `last_processed_block`, and
returns the start height when the file is absent, not parseable as
JSON, or holds an object without the key; but when the file holds valid
JSON that is not an object it raises `AttributeError`, and when the
stored value is a non-numeric string it raises `ValueError`. -/
theorem loadState_cases (startBlock : Int) :
    loadState startBlock .absent = .ok startBlock ∧
    loadState startBlock .unparseable = .ok startBlock ∧
    (∀ n : Int, loadState startBlock (.content (.jobj [(stateKey, .jnum n)])) = .ok n) ∧
    loadState startBlock (.content (.jobj [])) = .ok startBlock ∧
    (∀ elems, loadState startBlock (.content (.jarr elems)) = .error .attributeError) ∧
    loadState startBlock (.content (.jobj [(stateKey, .jstr "oops")])) = .error .valueError := by
  refine ⟨rfl, rfl, ?_, ?_, ?_, ?_⟩
  · intro n
    simp [loadState, loadStateBody, pyDictGet, pyInt, List.lookup]
  · simp [loadState, loadStateBody, pyDictGet, pyInt, List.lookup]
  · intro elems
    rfl
  · rfl

/-- Looking up the key just set yields the new value. -/
theorem dlookup_dictSet_self {α : Type} (d : List (String × α)) (k : String) (v : α) :
    dlookup (dictSet d k v) k = some v := by
  induction d with
  | nil => simp [dictSet, dlookup]
  | cons p rest ih =>
    rcases p with ⟨k', w⟩
    by_cases h : k' = k <;> simp [dictSet, h, dlookup, ih]

/-- Setting one key leaves every other key's lookup unchanged. -/
theorem dlookup_dictSet_ne {α : Type} (d : List (String × α)) (k k' : String) (v : α)
    (h : k ≠ k') : dlookup (dictSet d k v) k' = dlookup d k' := by
  induction d with
  | nil => simp [dictSet, dlookup, h]
  | cons p rest ih =>
    rcases p with ⟨k₀, w⟩
    by_cases h0 : k₀ = k
    · subst h0
      simp [dictSet, dlookup, h]
    · simp [dictSet, h0, dlookup, ih]

/-- Merging does not touch keys absent from the override dict. -/
theorem deepMerge_dlookup_absent :
    ∀ (o merged : List (String × CVal)) (k : String),
      (∀ p ∈ o, p.1 ≠ k) → dlookup (deepMerge merged o) k = dlookup merged k := by
  intro o
  induction o with
  | nil => intro merged k _; simp [deepMerge]
  | cons p rest ih =>
    intro merged k h
    rcases p with ⟨k', v⟩
    have hk' : k' ≠ k := h (k', v) (List.mem_cons_self _ _)
    have hrest : ∀ p ∈ rest, p.1 ≠ k := fun p hp => h p (List.mem_cons_of_mem _ hp)
    cases v with
    | scalar sv =>
      simp only [deepMerge]
      rw [ih _ _ hrest, dlookup_dictSet_ne _ _ _ _ hk']
    | dict od =>
      simp only [deepMerge]
      split <;> rw [ih _ _ hrest, dlookup_dictSet_ne _ _ _ _ hk']

/-- An override entry that is not a dict-dict conflict replaces
whatever the base had at that key. -/
theorem deepMerge_override_wins :
    ∀ (o merged : List (String × CVal)) (k : String) (v : CVal),
      (o.map Prod.fst).Nodup → dlookup o k = some v →
      (∀ od bd, v = .dict od → dlookup merged k ≠ some (.dict bd)) →
      dlookup (deepMerge merged o) k = some v := by
  intro o
  induction o with
  | nil => intro merged k v _ hlk; simp [dlookup] at hlk
  | cons p rest ih =>
    intro merged k v hnd hlk hnd2
    rcases p with ⟨k', w⟩
    have hndrest : (rest.map Prod.fst).Nodup := (List.nodup_cons.mp hnd).2
    by_cases hkk : k' = k
    · subst hkk
      simp [dlookup] at hlk
      subst hlk
      have habs : ∀ p ∈ rest, p.1 ≠ k' := by
        intro p hp heq
        have hmem : k' ∈ rest.map Prod.fst := by
          rw [← heq]
          exact List.mem_map_of_mem Prod.fst hp
        exact (List.nodup_cons.mp hnd).1 hmem
      cases w with
      | scalar sv =>
        simp only [deepMerge]
        rw [deepMerge_dlookup_absent rest _ k' habs, dlookup_dictSet_self]
      | dict od =>
        simp only [deepMerge]
        split
        · rename_i bd hbd
          exact absurd hbd (hnd2 od bd rfl)
        · rw [deepMerge_dlookup_absent rest _ k' habs, dlookup_dictSet_self]
    · simp only [dlookup, if_neg hkk] at hlk
      cases w with
      | scalar sv =>
        simp only [deepMerge]
        refine ih _ k v hndrest hlk ?_
        intro od bd hv heq
        exact hnd2 od bd hv (by rwa [dlookup_dictSet_ne _ _ _ _ hkk] at heq)
      | dict od' =>
        simp only [deepMerge]
        split <;>
        · refine ih _ k v hndrest hlk ?_
          intro od bd hv heq
          exact hnd2 od bd hv (by rwa [dlookup_dictSet_ne _ _ _ _ hkk] at heq)

/-- A dict-dict conflict is merged recursively, not replaced. -/
theorem deepMerge_dict_conflict :
    ∀ (o merged : List (String × CVal)) (k : String) (od bd : List (String × CVal)),
      (o.map Prod.fst).Nodup → dlookup o k = some (.dict od) →
      dlookup merged k = some (.dict bd) →
      dlookup (deepMerge merged o) k = some (.dict (deepMerge bd od)) := by
  intro o
  induction o with
  | nil => intro merged k od bd _ hlk; simp [dlookup] at hlk
  | cons p rest ih =>
    intro merged k od bd hnd hlk hb
    rcases p with ⟨k', w⟩
    have hndrest : (rest.map Prod.fst).Nodup := (List.nodup_cons.mp hnd).2
    by_cases hkk : k' = k
    · subst hkk
      simp [dlookup] at hlk
      subst hlk
      have habs : ∀ p ∈ rest, p.1 ≠ k' := by
        intro p hp heq
        have hmem : k' ∈ rest.map Prod.fst := by
          rw [← heq]
          exact List.mem_map_of_mem Prod.fst hp
        exact (List.nodup_cons.mp hnd).1 hmem
      simp only [deepMerge, hb]
      rw [deepMerge_dlookup_absent rest _ k' habs, dlookup_dictSet_self]
    · simp only [dlookup, if_neg hkk] at hlk
      cases w with
      | scalar sv =>
        simp only [deepMerge]
        exact ih _ k od bd hndrest hlk (by rwa [dlookup_dictSet_ne _ _ _ _ hkk])
      | dict od' =>
        simp only [deepMerge]
        split <;> exact ih _ k od bd hndrest hlk (by rwa [dlookup_dictSet_ne _ _ _ _ hkk])

/-- Mutating one heap object leaves every other address's content
unchanged. -/
theorem Heap.get_set_ne (h : Heap) (m a : Addr) (d : List (String × PyVal)) (hne : a ≠ m) :
    (h.set m d).get a = h.get a := by
  rcases h with ⟨objs, nxt⟩
  simp only [Heap.set, Heap.get]
  induction objs with
  | nil => rfl
  | cons p rest ih =>
    rcases p with ⟨a', d'⟩
    by_cases hp : a' = m
    · have hma : ¬m = a := fun hh => hne hh.symm
      have hpa : ¬a' = a := by rw [hp]; exact hma
      simp [hset, hget, hp, hma, hpa]
    · by_cases hpa : a' = a
      · subst hpa
        simp [hset, hget, hp]
      · simp [hset, hget, hp, hpa, ih]

/-- The `.next` field is untouched by `set`. -/
theorem Heap.set_next (h : Heap) (m : Addr) (d : List (String × PyVal)) :
    (h.set m d).next = h.next := rfl

/-- Reading an address other than the freshly allocated one sees the
original heap. -/
theorem Heap.get_alloc_ne (h : Heap) (bd : List (String × PyVal)) (a : Addr)
    (hne : a ≠ h.next) :
    (Heap.mk (h.objs ++ [(h.next, bd)]) (h.next + 1)).get a = h.get a := by
  rcases h with ⟨objs, nxt⟩
  simp only at hne
  simp only [Heap.get]
  induction objs with
  | nil =>
    have h2 : ¬nxt = a := fun hh => hne hh.symm
    simp [hget, h2]
  | cons p rest ih =>
    rcases p with ⟨a', d'⟩
    by_cases hpa : a' = a <;> simp [hget, hpa, ih]

/-- Frame property of the heap-level merge loop: given the frame
property of `deepMergeH` at the same fuel, `mergeItems` mutates only
the fresh `merged` object and heap growth is monotone. -/
theorem mergeItems_frame (fuel : Nat)
    (hP : ∀ (h : Heap) (b o : Addr) (h' : Heap) (m : Addr),
      deepMergeH fuel h b o = some (h', m) →
      (∀ a, a < h.next → h'.get a = h.get a) ∧ h.next ≤ h'.next) :
    ∀ (es : List (String × PyVal)) (h : Heap) (m : Addr) (h' : Heap),
      mergeItems fuel h m es = some h' →
      (∀ a, a < h.next → a ≠ m → h'.get a = h.get a) ∧ h.next ≤ h'.next := by
  intro es
  induction es with
  | nil =>
    intro h m h' he
    simp only [mergeItems, Option.some.injEq] at he
    subst he
    exact ⟨fun _ _ _ => rfl, le_refl _⟩
  | cons p rest ih =>
    intro h m h' he
    rcases p with ⟨k, v⟩
    cases hm : h.get m with
    | none => simp [mergeItems, hm] at he
    | some md =>
      have hgeneric : ∀ (d : List (String × PyVal)),
          mergeItems fuel (h.set m d) m rest = some h' →
          (∀ a, a < h.next → a ≠ m → h'.get a = h.get a) ∧ h.next ≤ h'.next := by
        intro d he2
        obtain ⟨hf, hn⟩ := ih (h.set m d) m h' he2
        rw [Heap.set_next] at hf hn
        refine ⟨?_, hn⟩
        intro a ha hne
        rw [hf a ha hne, Heap.get_set_ne h m a d hne]
      cases v with
      | scalar sv =>
        simp only [mergeItems, hm] at he
        exact hgeneric _ he
      | ref ov =>
        cases hlk : dlookup md k with
        | none =>
          simp only [mergeItems, hm, hlk] at he
          exact hgeneric _ he
        | some w =>
          cases w with
          | scalar sv =>
            simp only [mergeItems, hm, hlk] at he
            exact hgeneric _ he
          | ref bv =>
            simp only [mergeItems, hm, hlk] at he
            cases hdm : deepMergeH fuel h bv ov with
            | none => simp [hdm] at he
            | some pr =>
              rcases pr with ⟨h₂, r⟩
              simp only [hdm] at he
              obtain ⟨hf₂, hn₂⟩ := hP h bv ov h₂ r hdm
              cases hg2 : h₂.get m with
              | none => simp [hg2] at he
              | some md' =>
                simp only [hg2] at he
                obtain ⟨hf₃, hn₃⟩ := ih (h₂.set m (dictSet md' k (.ref r))) m h' he
                rw [Heap.set_next] at hf₃ hn₃
                refine ⟨?_, le_trans hn₂ hn₃⟩
                intro a ha hne
                rw [hf₃ a (lt_of_lt_of_le ha hn₂) hne,
                  Heap.get_set_ne h₂ m a _ hne, hf₂ a ha]

/-- Frame property of the heap-level `_deep_merge`: every dict object
existing before the call — its two arguments included — is unchanged
afterwards; only freshly allocated objects are written. -/
theorem deepMergeH_frame :
    ∀ (fuel : Nat) (h : Heap) (b o : Addr) (h' : Heap) (m : Addr),
      deepMergeH fuel h b o = some (h', m) →
      (∀ a, a < h.next → h'.get a = h.get a) ∧ h.next ≤ h'.next := by
  intro fuel
  induction fuel with
  | zero => intro h b o h' m he; simp [deepMergeH] at he
  | succ fuel ih =>
    intro h b o h' m he
    cases hb : h.get b with
    | none => simp [deepMergeH, hb] at he
    | some bd =>
      cases ho : h.get o with
      | none => simp [deepMergeH, hb, ho] at he
      | some od =>
        cases hmi : mergeItems fuel ⟨h.objs ++ [(h.next, bd)], h.next + 1⟩ h.next od with
        | none => simp [deepMergeH, hb, ho, hmi] at he
        | some h₂ =>
          simp only [deepMergeH, hb, ho, hmi] at he
          simp only [Option.some.injEq, Prod.mk.injEq] at he
          obtain ⟨he1, _⟩ := he
          obtain ⟨hf, hn⟩ := mergeItems_frame fuel ih od
            ⟨h.objs ++ [(h.next, bd)], h.next + 1⟩ h.next h₂ hmi
          have hn' : h.next + 1 ≤ h₂.next := hn
          subst he1
          constructor
          · intro a ha
            have hane : a ≠ h.next := Nat.ne_of_lt ha
            rw [hf a (Nat.lt_succ_of_lt ha) hane, Heap.get_alloc_ne h bd a hane]
          · exact le_trans (Nat.le_succ _) hn'

/-- C4 counterexample: when the external oracle fails and the
destination node's own gas-price query also raises, `_get_gas_price`
propagates the node query's exception rather than returning a value. -/
theorem getGasPrice_raises_when_node_query_fails :
    getGasPrice (.error .rpcError) (some (.error .rpcError)) = .error .rpcError := by
  rfl

/-- C6: `process_event` never lets a per-event failure escape (the
guard returns early and the `try/except` catches the body's
exceptions), so the batch loop of `_process_block_range` reaches every
event of the batch: it completes normally with one outcome per event,
in order. -/
theorem process_event_failures_do_not_abort_batch :
    (∀ (pst : ProcessorState) (env : ProcEnv) (e : LockEvent),
      ∃ o, processEvent pst env e = .ok o) ∧
    (∀ (pst : ProcessorState) (penv : Nat → ProcEnv) (evs : List LockEvent) (i : Nat),
      ∃ os, forLoopProcess pst penv evs i = .ok os ∧ os.length = evs.length) := by
  have h1 : ∀ (pst : ProcessorState) (env : ProcEnv) (e : LockEvent),
      ∃ o, processEvent pst env e = .ok o := by
    intro pst env e
    unfold processEvent
    split
    · exact ⟨.skippedUninit, rfl⟩
    · rcases hb : processEventBody pst env e with ⟨effs, r⟩
      cases r with
      | error err => exact ⟨.failed e.transactionHash err effs, by simp [hb]⟩
      | ok tx => exact ⟨.signed tx effs, by simp [hb]⟩
  refine ⟨h1, ?_⟩
  intro pst penv evs
  induction evs with
  | nil => exact fun i => ⟨[], rfl, rfl⟩
  | cons e rest ih =>
    intro i
    obtain ⟨o, ho⟩ := h1 pst (penv i) e
    obtain ⟨os, hos, hlen⟩ := ih (i + 1)
    exact ⟨o :: os, by simp [forLoopProcess, ho, hos], by simp [hlen]⟩

/-- C7: when the destination components are initialized and the
collaborators succeed, `process_event` builds the unlock transaction
with recipient = the event's `from` field, amount = the event's amount,
sourceNonce = the event's nonce, and the fixed gas limit 200000; it
performs a sign effect and never a broadcast effect. -/
theorem process_event_tx_fields (pst : ProcessorState) (env : ProcEnv) (e : LockEvent)
    (cnt : Nat) (q : GasQuote)
    (hc : pst.hasContract = true) (ha : pst.hasAccount = true) (hw : pst.hasW3 = true)
    (htc : env.txCount = .ok cnt)
    (hg : getGasPrice env.oracle (some env.nodeGas) = .ok q)
    (hs : env.signing = .ok ()) :
    processEvent pst env e =
      .ok (.signed ⟨e.fromAddr, e.amount, e.nonce, pst.relayerAddress, cnt, 200000, q.price⟩
        [.getTransactionCount, .queryGasPrice, .signTransaction]) ∧
    RpcEffect.signTransaction ∈
      [RpcEffect.getTransactionCount, RpcEffect.queryGasPrice, RpcEffect.signTransaction] ∧
    RpcEffect.sendRawTransaction ∉
      [RpcEffect.getTransactionCount, RpcEffect.queryGasPrice, RpcEffect.signTransaction] := by
  refine ⟨?_, by simp, by simp⟩
  simp [processEvent, hc, ha, hw, processEventBody, htc, hg, hs]

/-- C7 witness: a concrete event processed against succeeding
collaborators yields the expected signed transaction. -/
theorem process_event_tx_fields_witness :
    processEvent ⟨true, true, true, "0xRelayer"⟩ ⟨.ok 7, .ok 3, .ok 5, .ok ()⟩
        ⟨"0xAlice", 80001, 1000, 42, 123, "0xabc"⟩ =
      .ok (.signed ⟨"0xAlice", 1000, 42, "0xRelayer", 7, 200000, toWeiGwei 3⟩
        [.getTransactionCount, .queryGasPrice, .signTransaction]) ∧
    RpcEffect.signTransaction ∈
      [RpcEffect.getTransactionCount, RpcEffect.queryGasPrice, RpcEffect.signTransaction] ∧
    RpcEffect.sendRawTransaction ∉
      [RpcEffect.getTransactionCount, RpcEffect.queryGasPrice, RpcEffect.signTransaction] :=
  process_event_tx_fields ⟨true, true, true, "0xRelayer"⟩ ⟨.ok 7, .ok 3, .ok 5, .ok ()⟩
    ⟨"0xAlice", 80001, 1000, 42, 123, "0xabc"⟩ 7 ⟨toWeiGwei 3, .externalOracle⟩
    rfl rfl rfl rfl rfl rfl

/-- C10: `ConfigLoader.load` layers env vars over the
environment-specific file over `base.yaml`; at any key, an override
entry that is not a dict-dict conflict replaces the lower layer's
value, a key absent from the override keeps the lower layer's value,
a dict-dict conflict is merged recursively rather than replaced; and
the heap-level `_deep_merge` never mutates a pre-existing dict object
(its two inputs included). -/
theorem config_merge_semantics :
    (∀ (base envCfg : List (String × CVal)) (pfx : String)
        (environ : List (String × String)) (envVars : List (String × CVal)),
      loadFromEnv pfx environ = some envVars →
      load base envCfg pfx environ = some (deepMerge (deepMerge base envCfg) envVars)) ∧
    (∀ (b o : List (String × CVal)) (k : String),
      (∀ p ∈ o, p.1 ≠ k) → dlookup (deepMerge b o) k = dlookup b k) ∧
    (∀ (b o : List (String × CVal)) (k : String) (v : CVal),
      (o.map Prod.fst).Nodup → dlookup o k = some v →
      (∀ od bd, v = .dict od → dlookup b k ≠ some (.dict bd)) →
      dlookup (deepMerge b o) k = some v) ∧
    (∀ (b o : List (String × CVal)) (k : String) (od bd : List (String × CVal)),
      (o.map Prod.fst).Nodup → dlookup o k = some (.dict od) →
      dlookup b k = some (.dict bd) →
      dlookup (deepMerge b o) k = some (.dict (deepMerge bd od))) ∧
    (∀ (fuel : Nat) (h : Heap) (b o : Addr) (h' : Heap) (m : Addr),
      deepMergeH fuel h b o = some (h', m) →
      ∀ a, a < h.next → h'.get a = h.get a) := by
  refine ⟨?_, ?_, ?_, ?_, ?_⟩
  · intro base envCfg pfx environ envVars hv
    simp [load, hv]
  · intro b o k h
    exact deepMerge_dlookup_absent o b k h
  · intro b o k v hnd hlk hnd2
    exact deepMerge_override_wins o b k v hnd hlk hnd2
  · intro b o k od bd hnd hlk hb
    exact deepMerge_dict_conflict o b k od bd hnd hlk hb
  · intro fuel h b o h' m he a ha
    exact ((deepMergeH_frame fuel h b o h' m he).1) a ha

/-- C10 witness: a concrete dict-dict conflict under key `db` is merged
recursively — the override's `port` wins, the base's `host` survives. -/
theorem config_merge_semantics_witness :
    dlookup (deepMerge
        [("db", CVal.dict [("host", .scalar (.s "localhost")), ("port", .scalar (.i 5432))])]
        [("db", CVal.dict [("port", .scalar (.i 6543))])]) "db" =
      some (.dict (deepMerge
        [("host", CVal.scalar (.s "localhost")), ("port", CVal.scalar (.i 5432))]
        [("port", CVal.scalar (.i 6543))])) :=
  config_merge_semantics.2.2.2.1
    [("db", CVal.dict [("host", .scalar (.s "localhost")), ("port", .scalar (.i 5432))])]
    [("db", CVal.dict [("port", .scalar (.i 6543))])] "db"
    [("port", CVal.scalar (.i 6543))]
    [("host", CVal.scalar (.s "localhost")), ("port", CVal.scalar (.i 5432))]
    (by simp) rfl rfl

/-- C4 amended: the fallback order holds — oracle success yields the
`'fast'` value converted to wei tagged external-oracle; on oracle
failure a live node suggestion is returned tagged node-suggested; with
no destination connection object the 20 gwei floor is returned — and
the only raising case is an oracle failure combined with a failing node
gas-price query, whose exception propagates. -/
theorem getGasPrice_fallback_order :
    (∀ (fast : Nat) (destW3 : Option (Except PyErr Nat)),
      getGasPrice (.ok fast) destW3 = .ok ⟨toWeiGwei fast, .externalOracle⟩) ∧
    (∀ (e : PyErr) (g : Nat),
      getGasPrice (.error e) (some (.ok g)) = .ok ⟨g, .nodeSuggested⟩) ∧
    (∀ e : PyErr,
      getGasPrice (.error e) none = .ok ⟨toWeiGwei 20, .hardcodedFloor⟩) ∧
    (∀ e e' : PyErr,
      getGasPrice (.error e) (some (.error e')) = .error e') := by
  exact ⟨fun _ _ => rfl, fun _ _ => rfl, fun _ => rfl, fun _ _ => rfl⟩

end Bridge
